import Mathlib

/-!
Shallow embedding of the langkit lexer specification compiler
(`langkit/lexer.py`) and of the environment binding discipline of the
property expression compiler (`langkit/expressions/envs.py`), together
with theorems settling the specification claims.

Python values that carry no static type in the source (rule tuples,
dictionary values) are embedded as a `PyObj` sum; Python exceptions and
the diagnostics collaborator are embedded as a `PyError` sum, where
`diagError` stands for a diagnostic reported through
`check_source_language` and the other constructors stand for raised,
unreported Python exceptions.
-/

namespace Langkit

/-- Token and binding names.  The source canonicalises names through
`langkit.names.Name` (`from_camel` / `from_lower`); that module is not
among the sources, so names are modelled from the spec as their
canonical lower-case, underscore-separated spelling, which makes two
spellings of the same token equal exactly when their canonical forms
agree. -/
abbrev LkName := String

/-! ### Token actions and the token catalog (`lexer.py`, `TokenAction` /
`LexerToken`) -/

/-- One token action.  `index` is the value drawn from the global
`TokenAction._counter` at instantiation time (the token kind's numeric
value). -/
structure TokenAction where
  index : Nat
  name : LkName
  startIgnoreLayout : Bool := false
  endIgnoreLayout : Bool := false
deriving DecidableEq, Repr

/-- Embeds `LexerToken.Termination`, instantiated first when `lexer.py` is
imported, hence global counter value 0. -/
def terminationTok : TokenAction := ⟨0, "termination", false, false⟩

/-- Embeds `LexerToken.LexingFailure`, instantiated second at import time. -/
def lexingFailureTok : TokenAction := ⟨1, "lexing_failure", false, false⟩

/-- Value of the global `TokenAction._counter` right after `lexer.py`
has been imported (Termination and LexingFailure have been created). -/
def importCounter : Nat := 2

/-- Token actions created by a `LexerToken` subclass body: one action
per declared member, drawing consecutive values from the global
counter. -/
def mkDeclaredTokens (decls : List LkName) (counter : Nat) : List TokenAction :=
  decls.enum.map (fun p => TokenAction.mk (counter + p.1) p.2 false false)

/-- The `Indent` token injected by `LexerToken.__init__` when
`track_indent` is set (created after all of the subclass body tokens,
at lexer construction time). -/
def indentTokOf (decls : List LkName) (counter : Nat) : TokenAction :=
  ⟨counter + decls.length, "indent", false, false⟩

/-- The `Dedent` token injected when `track_indent` is set. -/
def dedentTokOf (decls : List LkName) (counter : Nat) : TokenAction :=
  ⟨counter + decls.length + 1, "dedent", false, false⟩

/-- The `Newline` token injected when `track_indent` is set. -/
def newlineTokOf (decls : List LkName) (counter : Nat) : TokenAction :=
  ⟨counter + decls.length + 2, "newline", false, false⟩

/-- The token catalog built by `LexerToken.__init__`: the `fields`
list collects, along the method resolution order, the token actions of
the subclass dictionary (declared members, plus the three layout
tokens when `track_indent` is set) followed by the two built-in
actions of the `LexerToken` base class. -/
structure LexerTokenCatalog where
  fields : List TokenAction
deriving DecidableEq, Repr

/-- Embeds `LexerToken.__init__` for a subclass declaring `decls`, run when
the global counter is at `counter`; returns the catalog and the new
counter value. -/
def lexerTokenInit (decls : List LkName) (trackIndent : Bool) (counter : Nat) :
    LexerTokenCatalog × Nat :=
  let declared := mkDeclaredTokens decls counter
  if trackIndent then
    (⟨declared ++ [indentTokOf decls counter, dedentTokOf decls counter,
                   newlineTokOf decls counter] ++ [terminationTok, lexingFailureTok]⟩,
     counter + decls.length + 3)
  else
    (⟨declared ++ [terminationTok, lexingFailureTok]⟩, counter + decls.length)

/-- Position of a token in the catalog's value order (`sorted_tokens`
orders by `value`): the number of catalog tokens with a smaller
numeric value. -/
def LexerTokenCatalog.valuePos (c : LexerTokenCatalog) (t : TokenAction) : Nat :=
  (c.fields.filter (fun u => u.index < t.index)).length

/-! ### Matchers (`lexer.py`, `Matcher` hierarchy) -/

/-- The closed set of matchers: `Pattern`, `Lexer.PredefPattern`,
`Literal`, `NoCase`, `Eof`, `Failure`. -/
inductive Matcher where
  | pattern (text : String)
  | predefPattern (name text : String)
  | literal (toMatch : String)
  | noCase (toMatch : String)
  | eof
  | failure
deriving DecidableEq, Repr

/-- Characters that `Pattern.max_match_length` accepts: `re.escape(c)
== c` (alphanumeric or underscore) or `c` in `('.', chr 39)`. -/
def plainPatternChar (c : Char) : Bool :=
  c.isAlphanum || c = '_' || c = '.' || c.toNat == 39

/-- Python exceptions and diagnostics, as observed by a caller.
`diagError` is a diagnostic reported through the
`check_source_language` collaborator; every other constructor is a
raised, unreported exception. -/
inductive PyError where
  | assertionError (msg : String)
  | valueError (msg : String)
  | indexError
  | attributeError
  | notImplementedError
  | diagError (msg : String)
deriving DecidableEq, Repr

/-- Whether a result is a reported diagnostic (as opposed to a raised
exception or a success). -/
def resultReported {α : Type} : Except PyError α → Bool
  | .error (.diagError _) => true
  | _ => false

/-- Whether a result is a raised `AssertionError`. -/
def resultAssertion {α : Type} : Except PyError α → Bool
  | .error (.assertionError _) => true
  | _ => false

/-- Embeds `max_match_length` over the matcher hierarchy.  `Pattern` (and the
derived `PredefPattern` and `NoCase`) raises `ValueError` when a
character would be escaped by `re.escape`; `Failure` does not override
the base method, which raises `NotImplementedError`. -/
def Matcher.maxMatchLength : Matcher → Except PyError Nat
  | .pattern t =>
      if t.data.all plainPatternChar then .ok t.length
      else .error (.valueError "Cannot compute the maximum number of characters this pattern will accept")
  | .predefPattern _ t =>
      if t.data.all plainPatternChar then .ok t.length
      else .error (.valueError "Cannot compute the maximum number of characters this pattern will accept")
  | .literal t => .ok t.length
  | .noCase t =>
      if t.data.all plainPatternChar then .ok t.length
      else .error (.valueError "Cannot compute the maximum number of characters this pattern will accept")
  | .eof => .ok 0
  | .failure => .error .notImplementedError

/-! ### Case rules (`lexer.py`, `Alt` / `Case.CaseAction`) -/

/-- One alternative of a context-dependent `Case` rule.  All three
attributes default to `None` in the source. -/
structure Alt where
  prevTokenCond : Option (List TokenAction) := none
  send : Option TokenAction := none
  matchSize : Option Nat := none
deriving DecidableEq, Repr

/-- The Python 2 comparison `alt.match_size <= max_match_len`: `None`
compares less than every integer. -/
def altSizeOk (a : Alt) (maxLen : Nat) : Bool :=
  match a.matchSize with
  | none => true
  | some n => n ≤ maxLen

/-- Actions attached to rules: a token action, `Ignore`, or the
`Case.CaseAction` built by a validated `Case` rule (which keeps the
leading alternatives and the final default alternative apart). -/
inductive Action where
  | token (t : TokenAction)
  | ignore
  | caseAction (maxMatchLen : Nat) (alts : List Alt) (lastAlt : Alt)
deriving DecidableEq, Repr

/-- The validation loop of `Case.CaseAction.__init__`: each
alternative's `match_size` must not exceed the matcher's maximum match
length (the `isinstance(alt, Alt)` assertion is enforced by the
embedding's types). -/
def checkAltSizes (maxLen : Nat) : List Alt → Except PyError Unit
  | [] => .ok ()
  | a :: rest =>
      if altSizeOk a maxLen then checkAltSizes maxLen rest
      else .error (.assertionError "Match size for this Case alternative cannot be longer than the Case matcher")

/-- Embeds `Case.CaseAction.__init__`: validate every alternative, then
require the last alternative to carry no previous-token condition;
taking `alts[-1]` of an empty list raises `IndexError`. -/
def mkCaseAction (maxLen : Nat) (alts : List Alt) : Except PyError Action :=
  match checkAltSizes maxLen alts with
  | .error e => .error e
  | .ok _ =>
      match alts.getLast? with
      | none => .error .indexError
      | some last =>
          if last.prevTokenCond.isSome then
            .error (.assertionError "The last alternative to a case matcher must have no prev token condition")
          else .ok (.caseAction maxLen alts.dropLast last)

/-- Embeds `Case.__init__`: compute the matcher's maximum match length, then
build the `CaseAction`. -/
def mkCase (m : Matcher) (alts : List Alt) : Except PyError (Matcher × Action) :=
  match m.maxMatchLength with
  | .error e => .error e
  | .ok len =>
      match mkCaseAction len alts with
      | .error e => .error e
      | .ok a => .ok (m, a)

/-! ### The lexer object (`lexer.py`, `Lexer`) -/

/-- Untyped Python values as they flow through `add_rules` tuples and
the `literals_map` dictionary; `add_rules` never inspects the element
types of a two-element tuple, so a rule slot may hold any object. -/
inductive PyObj where
  | mat (m : Matcher)
  | act (a : Action)
  | strObj (s : String)
  | otherObj
deriving DecidableEq, Repr

/-- A matcher/action association (`RuleAssoc`), with the dynamic
typing of the source preserved. -/
structure RuleAssoc where
  matcher : PyObj
  action : PyObj
deriving DecidableEq, Repr

/-- One argument to `add_rules`: a Python tuple of arbitrary arity and
contents, a `RuleAssoc` (or `Case`) instance, or a value of any other
type. -/
inductive RuleInput where
  | tup (elems : List PyObj)
  | assoc (r : RuleAssoc)
  | otherInput
deriving DecidableEq, Repr

/-- Python `str.lower()` on the ASCII strings handled here (spelled
out on the character list so that it evaluates). -/
def pyLower (s : String) : String := ⟨s.data.map Char.toLower⟩

/-- Python dictionary assignment `d[k] = v`: any previous binding of
the key is overwritten. -/
def dictInsert (m : List (String × PyObj)) (k : String) (v : PyObj) :
    List (String × PyObj) :=
  (m.filter (fun p => p.1 ≠ k)) ++ [(k, v)]

/-- Python dictionary lookup `d[k]` / `k in d`. -/
def dictFind (m : List (String × PyObj)) (k : String) : Option PyObj :=
  (m.find? (fun p => p.1 = k)).map (·.2)

/-- The lexer state: token catalog, the named-pattern list
(`__patterns`), the rule list, the token-name set, and the
literal-text-to-action dictionary (`literals_map`). -/
structure Lexer where
  tokens : LexerTokenCatalog
  internalPatterns : List (String × String)
  rules : List RuleAssoc
  tokensSet : List LkName
  trackIndent : Bool
  literalsMap : List (String × PyObj)
deriving DecidableEq, Repr

/-- The per-entry normalisation of `Lexer.add_rules`: a tuple must
have exactly two elements (its contents are not further checked);
anything that is neither a tuple nor a `RuleAssoc` fails the
`isinstance` assertion. -/
def ruleOfInput : RuleInput → Except PyError RuleAssoc
  | .tup [x, y] => .ok ⟨x, y⟩
  | .tup _ => .error (.assertionError "add_rules: tuple does not have exactly two elements")
  | .assoc r => .ok r
  | .otherInput => .error (.assertionError "add_rules: not a tuple nor a RuleAssoc instance")

/-- Appending one normalised rule: the rule list grows, and a rule
whose matcher is a `Literal` additionally (re)binds the literal's text
to the rule's action in `literals_map`. -/
def Lexer.addRule (l : Lexer) (r : RuleAssoc) : Lexer :=
  let withRule := { l with rules := l.rules ++ [r] }
  match r.matcher with
  | .mat (.literal t) => { withRule with literalsMap := dictInsert l.literalsMap t r.action }
  | _ => withRule

/-- Embeds `Lexer.add_rules`, processing its arguments in call order. -/
def Lexer.addRules (l : Lexer) : List RuleInput → Except PyError Lexer
  | [] => .ok l
  | x :: xs =>
      match ruleOfInput x with
      | .error e => .error e
      | .ok r => (l.addRule r).addRules xs

/-- Embeds `Lexer.add_patterns`: named patterns are appended in declaration
order. -/
def Lexer.addPatterns (l : Lexer) (ps : List (String × String)) : Lexer :=
  { l with internalPatterns := l.internalPatterns ++ ps }

/-- The two rules prepended by `Lexer.__init__` for every lexer. -/
def implicitRuleInputs : List RuleInput :=
  [.tup [.mat .eof, .act (.token terminationTok)],
   .tup [.mat .failure, .act (.token lexingFailureTok)]]

/-- The third implicit rule prepended when indentation is tracked: the
raw literal backslash-n mapped to the `Newline` action. -/
def newlineRuleInput (decls : List LkName) (counter : Nat) : RuleInput :=
  .tup [.mat (.literal "\\n"), .act (.token (newlineTokOf decls counter))]

/-- Embeds `Lexer.__init__` for a token class declaring `decls`, run while
the global token counter is at `counter`. -/
def mkLexer (decls : List LkName) (trackIndent : Bool) (counter : Nat) :
    Except PyError Lexer :=
  let (cat, _) := lexerTokenInit decls trackIndent counter
  let l0 : Lexer :=
    ⟨cat, [], [], cat.fields.map (·.name), trackIndent, []⟩
  match l0.addRules implicitRuleInputs with
  | .error e => .error e
  | .ok l1 =>
      if trackIndent then l1.addRules [newlineRuleInput decls counter]
      else .ok l1

/-- Arguments accepted by `Lexer.token_base_name`: a token action, a
`names.Name`, a string, or a value of any other type. -/
inductive TokenInput where
  | action (t : TokenAction)
  | nm (n : LkName)
  | str (s : String)
  | otherTok
deriving DecidableEq, Repr

/-- Embeds `Lexer.token_base_name`.  A declared name is asserted to belong to
the token set; a string is first lowered and looked up among the
declared token names, then looked up verbatim in `literals_map`
(taking the `.name` attribute of the stored object), and otherwise
rejected through `check_source_language`; any other input type fails
the `isinstance(token, str)` assertion. -/
def Lexer.tokenBaseName (l : Lexer) : TokenInput → Except PyError LkName
  | .action t => .ok t.name
  | .nm n =>
      if n ∈ l.tokensSet then .ok n
      else .error (.assertionError "token_base_name: Name not in tokens_set")
  | .str s =>
      let name := pyLower s
      if name ∈ l.tokensSet then .ok name
      else
        match dictFind l.literalsMap s with
        | some (.act (.token t)) => .ok t.name
        | some (.mat (.predefPattern n _)) => .ok n
        | some _ => .error .attributeError
        | none =>
            .error (.diagError (s ++ " token literal is not part of the valid tokens for this grammar"))
  | .otherTok => .error (.assertionError "Bad type for token, supposed to be str")

/-- A small concrete lexer used by the closed counterexample and
witness theorems: one declared token, built right after import. -/
def demoLexer : Lexer :=
  match mkLexer ["number"] false importCounter with
  | .ok l => l
  | .error _ => ⟨⟨[]⟩, [], [], [], false, []⟩

/-! ### Environment binding state (`expressions/envs.py`, `EnvVariable`) -/

/-- The process-wide binding state of the `Env` singleton: the
`_is_bound` flag, plus the current binding name used when rendering
(the `AbstractVariable` name mutated by `bind_name`). -/
structure EnvState where
  isBound : Bool
  name : LkName
deriving DecidableEq, Repr

/-- Embeds `EnvVariable.default_name` (`Current_Env`), in canonical lower
case. -/
def defaultEnvName : LkName := "current_env"

/-- The slice of the current `PropertyDef` consulted by the binding
discipline.  `PropertyDef` lives in `langkit/expressions/base.py`,
which is not among the sources; modelled from the spec, which only
consults whether the property declares an implicit environment
parameter. -/
structure PropCtx where
  hasImplicitEnv : Bool
deriving DecidableEq, Repr

/-- Embeds `EnvVariable.has_ambient_env`: the current property declares an
implicit environment parameter, or `Env` is explicitly bound. -/
def hasAmbientEnv (p : PropCtx) (s : EnvState) : Bool :=
  p.hasImplicitEnv || s.isBound

namespace EnvVariable

/-- Embeds `EnvVariable.bind`, a generator-based context manager: the flag is
saved, set to `True` for the body, and the line restoring it runs only
when the body completes normally — when the body raises, the generator
is never resumed past its `yield`, so no restoration happens. -/
def bind {α : Type} (body : EnvState → EnvState × Except PyError α) (s : EnvState) :
    EnvState × Except PyError α :=
  let saved := s.isBound
  match body { s with isBound := true } with
  | (s1, .ok a) => ({ s1 with isBound := saved }, .ok a)
  | (s1, .error e) => (s1, .error e)

/-- Modelled from the spec: `AbstractVariable.bind_name` is defined in
`langkit/expressions/base.py`, which is not among the sources.  It
scopes the variable's current name; per the spec the binding-name
state is mutated only through scoped acquire/release pairs that
restore the prior state on exit. -/
def bindName {α : Type} (n : LkName) (body : EnvState → EnvState × Except PyError α)
    (s : EnvState) : EnvState × Except PyError α :=
  let saved := s.name
  let (s1, r) := body { s with name := n }
  ({ s1 with name := saved }, r)

/-- Embeds `EnvVariable.bind_default`: under the default name when the
property has an implicit environment parameter, otherwise the flag is
saved, cleared for the body, and — as in `bind` — restored only on
normal completion of the body. -/
def bindDefault {α : Type} (prop : PropCtx) (body : EnvState → EnvState × Except PyError α)
    (s : EnvState) : EnvState × Except PyError α :=
  if prop.hasImplicitEnv then
    bindName defaultEnvName body s
  else
    let saved := s.isBound
    match body { s with isBound := false } with
    | (s1, .ok a) => ({ s1 with isBound := saved }, .ok a)
    | (s1, .error e) => (s1, .error e)

end EnvVariable

/-- Nests of scoped binding operations, as they occur during the
construction pass: sequencing, the three scoped operations, and a
fatal reported diagnostic raised inside a scope. -/
inductive ScopeProg where
  | nop
  | fatal
  | seq (p q : ScopeProg)
  | inBind (body : ScopeProg)
  | inBindDefault (hasImplicitEnv : Bool) (body : ScopeProg)
  | inBindName (n : LkName) (body : ScopeProg)
deriving DecidableEq, Repr

/-- Run a nest of scopes on the binding state.  The scope cases inline
`EnvVariable.bind` / `bindDefault` / `bindName` above (see the
bridging lemmas that follow). -/
def runScope : ScopeProg → EnvState → EnvState × Except PyError Unit
  | .nop, s => (s, .ok ())
  | .fatal, s => (s, .error (.diagError "fatal diagnostic"))
  | .seq p q, s =>
      match runScope p s with
      | (s1, .ok _) => runScope q s1
      | (s1, .error e) => (s1, .error e)
  | .inBind b, s =>
      let saved := s.isBound
      match runScope b { s with isBound := true } with
      | (s1, .ok a) => ({ s1 with isBound := saved }, .ok a)
      | (s1, .error e) => (s1, .error e)
  | .inBindDefault h b, s =>
      match h with
      | true =>
          match runScope b { s with name := defaultEnvName } with
          | (s1, r) => ({ s1 with name := s.name }, r)
      | false =>
          match runScope b { s with isBound := false } with
          | (s1, .ok a) => ({ s1 with isBound := s.isBound }, .ok a)
          | (s1, .error e) => (s1, .error e)
  | .inBindName n b, s =>
      match runScope b { s with name := n } with
      | (s1, r) => ({ s1 with name := s.name }, r)

/-! ### The construction pass (`expressions/envs.py`, `env_get` /
`eval_in_env` / `EnvBindExpr`) -/

/-- Modelled from the spec: the closed type lattice consumed by the
construction pass (`langkit/compiled_types.py` is not among the
sources).  `envEl` is the lookup-result type `T.root_node.env_el()`,
and `arrayOf` the array type constructor. -/
inductive Ty where
  | lexicalEnv
  | symbol
  | token
  | bool
  | rootNode
  | envEl
  | arrayOf (t : Ty)
deriving DecidableEq, Repr

/-- Abstract expressions, restricted to the operations of
`expressions/envs.py` plus a generic typed leaf (covering `Self`,
variables and literals).  `env_get` accepts a key that is an abstract
expression, a string, or — `envGetBad` — a value of any other type,
mirroring the dynamic `isinstance` check of the source. -/
inductive AbstractExpr where
  | envRef
  | lit (t : Ty) (v : Nat)
  | evalInEnv (envExpr toEvalExpr : AbstractExpr)
  | envGetE (envExpr keyExpr : AbstractExpr) (resolveUnique sequential recursive : Bool)
  | envGetS (envExpr : AbstractExpr) (key : String) (resolveUnique sequential recursive : Bool)
  | envGetBad (envExpr : AbstractExpr) (resolveUnique sequential recursive : Bool)
deriving DecidableEq, Repr

/-- Resolved expressions produced by the construction pass.
`envVarRef` is the result of `EnvVariable.construct` (a reference to
the `Env` singleton whose name is only resolved at render time);
`envBind` is `EnvBindExpr`, carrying the name of the `New_Env` local
variable it creates. -/
inductive ResolvedExpr where
  | envVarRef
  | litR (t : Ty) (v : Nat)
  | symLit (s : String)
  | getSymbol (e : ResolvedExpr)
  | basicExpr (template : String) (t : Ty) (operands : List ResolvedExpr)
  | envBind (envVar : LkName) (envE body : ResolvedExpr)

/-- Static type of a resolved expression; an `EnvBindExpr` takes the
type of its dependent expression (`static_type =
to_eval_expr.type`). -/
def ResolvedExpr.typeOf : ResolvedExpr → Ty
  | .envVarRef => .lexicalEnv
  | .litR t _ => t
  | .symLit _ => .symbol
  | .getSymbol _ => .symbol
  | .basicExpr _ t _ => t
  | .envBind _ _ b => b.typeOf

/-- The rendering template of a resolved expression, when it is a
`BasicExpr`. -/
def ResolvedExpr.templateOf : ResolvedExpr → Option String
  | .basicExpr t _ _ => some t
  | _ => none

/-- The construction-time state: the `Env` binding state plus the
fresh-variable counter of the current property
(`PropertyDef.get().vars`). -/
structure CState where
  env : EnvState
  fresh : Nat
deriving DecidableEq, Repr

/-- Name of the `New_Env` local variable created by the n-th call to
`vars.create` in the current property. -/
def freshEnvVarName (n : Nat) : LkName := "new_env_" ++ toString n

/-- The diagnostic issued by `EnvVariable.construct` when no ambient
environment is available (message text from the source). -/
def noAmbientEnvMsg : String :=
  "This property has no implicit environment parameter: please use the eval_in_env construct to bind an environment first."

/-- The Ada template used by `env_get` when `sequential=True`
(adjacent Python string literals concatenated). -/
def seqGetTemplate : String :=
  "AST_Envs.Get  (Self      => {},   Key => {},   From => {},   Recursive => {})"

/-- The Ada template used by `env_get` without sequential
semantics. -/
def plainGetTemplate : String :=
  "AST_Envs.Get (Self => {}, Key => {}, Recursive => {})"

/-- The final assembly of `env_get`: the `recursive` flag is
constructed at boolean type and appended to the operands; with
`resolve_unique` the result is the first element of the lookup-result
array at type `env_el`, otherwise the whole array at the array
type. -/
def envGetBuild (envR symR : ResolvedExpr) (ru sq rc : Bool) : ResolvedExpr :=
  let recR := ResolvedExpr.litR .bool (if rc then 1 else 0)
  let arrayTmpl := if sq then seqGetTemplate else plainGetTemplate
  let operands :=
    if sq then [envR, symR, ResolvedExpr.litR .rootNode 0, recR]
    else [envR, symR, recR]
  if ru then
    ResolvedExpr.basicExpr ("Get (" ++ arrayTmpl ++ ", 0)") .envEl operands
  else
    ResolvedExpr.basicExpr ("Create (" ++ arrayTmpl ++ ")") (.arrayOf .envEl) operands

/-- The symbol-key checks of `env_get`: a token-typed key is
implicitly converted through `GetSymbol`, and the result must be
symbol-typed, else the reported "Wrong type for symbol expr"
diagnostic. -/
def symCheck (symR0 : ResolvedExpr) : Except PyError ResolvedExpr :=
  let symR := if symR0.typeOf = .token then ResolvedExpr.getSymbol symR0 else symR0
  if symR.typeOf ≠ .symbol then .error (.diagError "Wrong type for symbol expr")
  else .ok symR

/-- The construction pass over the abstract expressions above,
threading the binding state.  `envRef` is `EnvVariable.construct`;
`evalInEnv` is `eval_in_env` (environment operand constructed outside
the new binding, dependent expression under `Env.bind()`, the
`New_Env` variable created by `EnvBindExpr.__init__`; as in the
source's context manager, the flag is restored only on normal
completion); the `envGet` cases are `env_get`, with the source's
evaluation order (key first, then environment operand).  Expected-type
checks of the generic `construct` entry point of
`expressions/base.py` (not among the sources) are modelled from the
spec as reported type-mismatch diagnostics. -/
def construct (p : PropCtx) : AbstractExpr → CState → CState × Except PyError ResolvedExpr
  | .envRef, s =>
      if hasAmbientEnv p s.env then (s, .ok .envVarRef)
      else (s, .error (.diagError noAmbientEnvMsg))
  | .lit t v, s => (s, .ok (.litR t v))
  | .evalInEnv e x, s =>
      match construct p e s with
      | (s1, .error err) => (s1, .error err)
      | (s1, .ok envR) =>
          if envR.typeOf ≠ .lexicalEnv then (s1, .error (.diagError "type mismatch"))
          else
            let saved := s1.env.isBound
            match construct p x { s1 with env := { s1.env with isBound := true } } with
            | (s2, .error err) => (s2, .error err)
            | (s2, .ok xR) =>
                ({ env := { s2.env with isBound := saved }, fresh := s2.fresh + 1 },
                 .ok (.envBind (freshEnvVarName s2.fresh) envR xR))
  | .envGetE envExpr keyExpr ru sq rc, s =>
      match construct p keyExpr s with
      | (s1, .error err) => (s1, .error err)
      | (s1, .ok symR0) =>
          match symCheck symR0 with
          | .error err => (s1, .error err)
          | .ok symR =>
              match construct p envExpr s1 with
              | (s2, .error err) => (s2, .error err)
              | (s2, .ok envR) =>
                  if envR.typeOf ≠ .lexicalEnv then (s2, .error (.diagError "type mismatch"))
                  else (s2, .ok (envGetBuild envR symR ru sq rc))
  | .envGetS envExpr key ru sq rc, s =>
      match symCheck (ResolvedExpr.symLit key) with
      | .error err => (s, .error err)
      | .ok symR =>
          match construct p envExpr s with
          | (s2, .error err) => (s2, .error err)
          | (s2, .ok envR) =>
              if envR.typeOf ≠ .lexicalEnv then (s2, .error (.diagError "type mismatch"))
              else (s2, .ok (envGetBuild envR symR ru sq rc))
  | .envGetBad _ _ _ _, s =>
      (s, .error (.diagError "Invalid key argument for Env.get"))

/-- Pointwise update of a name assignment. -/
def updateFun (rho : LkName → Nat) (n : LkName) (v : Nat) : LkName → Nat :=
  fun m => if m = n then v else rho m

/-- Environment denotation of a resolved expression: which environment
value an ambient reference yields at render time.  `rho` assigns
environment values to variable names and `cur` is the current binding
name of the `Env` singleton.  The `envBind` case mirrors
`EnvBindExpr._render_pre` / `_render_expr`: the environment operand is
rendered under the outer binding name, `New_Env` receives its value,
and the dependent expression is rendered under `bind_name(New_Env)`.
Non-environment leaves are given the value 0. -/
def evalR (rho : LkName → Nat) (cur : LkName) : ResolvedExpr → Nat
  | .envVarRef => rho cur
  | .litR _ v => v
  | .symLit _ => 0
  | .getSymbol _ => 0
  | .basicExpr _ _ _ => 0
  | .envBind v e b => evalR (updateFun rho v (evalR rho cur e)) v b

/-! ### Auxiliary definitions used by the theorems -/

/-- The normalised rules a successful `add_rules` call appends, in
call order. -/
def rulesOfInputs (xs : List RuleInput) : List RuleAssoc :=
  xs.filterMap (fun x => (ruleOfInput x).toOption)

/-- Whether an `add_rules` argument is malformed: neither a
two-element tuple nor a `RuleAssoc` instance. -/
def malformedRuleInput : RuleInput → Bool
  | .tup xs => xs.length ≠ 2
  | .assoc _ => false
  | .otherInput => true

/-- The demo lexer extended with one user rule. -/
def demoLexerPlus : Lexer :=
  demoLexer.addRule ⟨.mat (.literal "+"), .act .ignore⟩

/-- The demo lexer after two rules sharing the literal text `+`. -/
def demoLexerTwoPlus : Lexer :=
  (demoLexer.addRule ⟨.mat (.literal "+"), .act .ignore⟩).addRule
    ⟨.mat (.literal "+"), .act (.token ⟨10, "plus", false, false⟩)⟩

/-- A second token catalog, declared in the same process after the
demo one: its token actions draw later values from the shared global
counter. -/
def secondCatalog : LexerTokenCatalog :=
  (lexerTokenInit ["ident"] false (lexerTokenInit ["number"] false importCounter).2).1

/-! ## Theorems -/

/-- Each `ScopeProg` scope case runs exactly the corresponding scoped
operation of `EnvVariable`. -/
theorem runScope_inBind (b : ScopeProg) (s : EnvState) :
    runScope (.inBind b) s = EnvVariable.bind (runScope b) s := by
  cases hh : runScope b { s with isBound := true } with
  | mk s1 r => cases r <;> simp [runScope, EnvVariable.bind, hh]

theorem runScope_inBindDefault (h : Bool) (b : ScopeProg) (s : EnvState) :
    runScope (.inBindDefault h b) s = EnvVariable.bindDefault ⟨h⟩ (runScope b) s := by
  cases h with
  | true =>
      cases hh : runScope b { s with name := defaultEnvName } with
      | mk s1 r =>
          simp [runScope, EnvVariable.bindDefault, EnvVariable.bindName, hh]
  | false =>
      cases hh : runScope b { s with isBound := false } with
      | mk s1 r =>
          cases r <;> simp [runScope, EnvVariable.bindDefault, hh]

theorem runScope_inBindName (n : LkName) (b : ScopeProg) (s : EnvState) :
    runScope (.inBindName n b) s = EnvVariable.bindName n (runScope b) s := by
  cases hh : runScope b { s with name := n } with
  | mk s1 r => simp [runScope, EnvVariable.bindName, hh]

/-! ## Claim C1 -/

/-- Claim C1, counterexample.  A fatal diagnostic raised inside an
`Env.bind()` scope does not restore the pre-scope state: the
generator-based context manager never resumes past its `yield`, so the
flag stays `true` although it was `false` before the scope. -/
theorem bind_fatal_exit_not_restored :
    runScope (.inBind .fatal) ⟨false, defaultEnvName⟩
      = (⟨true, defaultEnvName⟩, .error (.diagError "fatal diagnostic"))
    ∧ (⟨true, defaultEnvName⟩ : EnvState) ≠ ⟨false, defaultEnvName⟩ := by
  exact ⟨rfl, by decide⟩

/-- Claim C1, amended: every nest of `bind` / `bind_default` /
`bind_name` scopes that completes normally restores the binding state
(flag and current name) to exactly its pre-nest value; the restoration
guarantee does not extend to the fatal-diagnostic exit path (see the
counterexample). -/
theorem bind_scopes_restore_on_normal_exit (p : ScopeProg) (s s' : EnvState)
    (h : runScope p s = (s', Except.ok ())) : s' = s := by
  induction p generalizing s s' with
  | nop =>
      simp only [runScope, Prod.mk.injEq] at h
      exact h.1.symm
  | fatal => simp [runScope] at h
  | seq a b iha ihb =>
      simp only [runScope] at h
      cases ha : runScope a s with
      | mk s1 r =>
          rw [ha] at h
          cases r with
          | error e => simp at h
          | ok u =>
              cases u
              exact (ihb s1 s' h).trans (iha s s1 ha)
  | inBind b ih =>
      simp only [runScope] at h
      cases hb : runScope b { s with isBound := true } with
      | mk s1 r =>
          rw [hb] at h
          cases r with
          | error e => simp at h
          | ok u =>
              cases u
              simp only [Prod.mk.injEq] at h
              have h1 : s1 = { s with isBound := true } := ih _ _ hb
              rw [← h.1, h1]
  | inBindDefault hie b ih =>
      cases hie with
      | true =>
          simp only [runScope] at h
          cases hb : runScope b { s with name := defaultEnvName } with
          | mk s1 r =>
              rw [hb] at h
              simp only [Prod.mk.injEq] at h
              cases r with
              | error e => simp at h
              | ok u =>
                  have h1 : s1 = { s with name := defaultEnvName } := ih _ _ (by rw [hb, h.2])
                  rw [← h.1, h1]
      | false =>
          simp only [runScope] at h
          cases hb : runScope b { s with isBound := false } with
          | mk s1 r =>
              rw [hb] at h
              cases r with
              | error e => simp at h
              | ok u =>
                  cases u
                  simp only [Prod.mk.injEq] at h
                  have h1 : s1 = { s with isBound := false } := ih _ _ hb
                  rw [← h.1, h1]
  | inBindName n b ih =>
      simp only [runScope] at h
      cases hb : runScope b { s with name := n } with
      | mk s1 r =>
          rw [hb] at h
          simp only [Prod.mk.injEq] at h
          cases r with
          | error e => simp at h
          | ok u =>
              have h1 : s1 = { s with name := n } := ih _ _ (by rw [hb, h.2])
              rw [← h.1, h1]

/-- Witness for the amended claim C1, on a concrete nest of all three
scope kinds completing normally. -/
theorem bind_scopes_restore_witness :
    runScope
        (.seq (.inBindDefault true (.inBind (.inBindDefault false .nop)))
              (.inBindName "other_env" .nop))
        ⟨false, "outer_env"⟩
      = (⟨false, "outer_env"⟩, Except.ok ())
    ∧ (⟨false, "outer_env"⟩ : EnvState) = ⟨false, "outer_env"⟩ := by
  refine ⟨rfl, ?_⟩
  exact bind_scopes_restore_on_normal_exit
    (.seq (.inBindDefault true (.inBind (.inBindDefault false .nop)))
          (.inBindName "other_env" .nop))
    ⟨false, "outer_env"⟩ ⟨false, "outer_env"⟩ rfl

/-! ## Claim C4 -/

/-- Claim C4: `has_ambient_env` holds exactly when the current
property declares an implicit environment parameter or the environment
is explicitly bound, and constructing a reference to the ambient
environment while it is false is the reported fatal diagnostic
instructing the author to bind an environment via `eval_in_env` — the
construction never falls back to a default environment. -/
theorem ambient_env_gate (p : PropCtx) (s : CState) :
    hasAmbientEnv p s.env = (p.hasImplicitEnv || s.env.isBound)
    ∧ (hasAmbientEnv p s.env = true ↔ (p.hasImplicitEnv = true ∨ s.env.isBound = true))
    ∧ construct p .envRef s
        = (if hasAmbientEnv p s.env then (s, .ok .envVarRef)
           else (s, .error (.diagError noAmbientEnvMsg))) := by
  refine ⟨rfl, by simp [hasAmbientEnv], ?_⟩
  by_cases h : hasAmbientEnv p s.env <;> simp [construct, h]

/-- Witness for claim C4 at a concrete unbound state: the gate is
false and the construction is the reported diagnostic. -/
theorem ambient_env_gate_witness :
    hasAmbientEnv ⟨false⟩ (⟨⟨false, "current_env"⟩, 0⟩ : CState).env
      = (false || (⟨⟨false, "current_env"⟩, 0⟩ : CState).env.isBound)
    ∧ (hasAmbientEnv ⟨false⟩ (⟨⟨false, "current_env"⟩, 0⟩ : CState).env = true
        ↔ ((false : Bool) = true
            ∨ (⟨⟨false, "current_env"⟩, 0⟩ : CState).env.isBound = true))
    ∧ construct ⟨false⟩ .envRef ⟨⟨false, "current_env"⟩, 0⟩
        = (if hasAmbientEnv ⟨false⟩ (⟨⟨false, "current_env"⟩, 0⟩ : CState).env then
             (⟨⟨false, "current_env"⟩, 0⟩, .ok .envVarRef)
           else (⟨⟨false, "current_env"⟩, 0⟩, .error (.diagError noAmbientEnvMsg))) :=
  ambient_env_gate ⟨false⟩ ⟨⟨false, "current_env"⟩, 0⟩

/-! ## Lexer helper lemmas -/

/-- Lemma: `resultAssertion` only looks at the error, not at the success
type. -/
theorem resultAssertion_error {α β : Type} (e : PyError) :
    resultAssertion (α := α) (.error e) = resultAssertion (α := β) (.error e) := by
  cases e <;> rfl

/-- Appending one rule through `Lexer.addRule` only grows the rule
list (and possibly `literals_map`). -/
theorem addRule_components (l : Lexer) (r : RuleAssoc) :
    (l.addRule r).rules = l.rules ++ [r]
    ∧ (l.addRule r).internalPatterns = l.internalPatterns
    ∧ (l.addRule r).tokensSet = l.tokensSet
    ∧ (l.addRule r).tokens = l.tokens
    ∧ (l.addRule r).trackIndent = l.trackIndent := by
  unfold Lexer.addRule
  split <;> simp

/-- A successful `add_rules` call appends exactly the normalised rules
in call order, and touches neither the pattern list nor the token
set. -/
theorem addRules_ok_append (xs : List RuleInput) (l l' : Lexer)
    (h : l.addRules xs = .ok l') :
    l'.rules = l.rules ++ rulesOfInputs xs
    ∧ l'.internalPatterns = l.internalPatterns
    ∧ l'.tokensSet = l.tokensSet := by
  induction xs generalizing l with
  | nil =>
      simp only [Lexer.addRules] at h
      cases h
      simp [rulesOfInputs]
  | cons x xs ih =>
      simp only [Lexer.addRules] at h
      cases hr : ruleOfInput x with
      | error e => rw [hr] at h; simp at h
      | ok r =>
          rw [hr] at h
          have hrec := ih (l.addRule r) h
          have hc := addRule_components l r
          refine ⟨?_, ?_, ?_⟩
          · have hcons : rulesOfInputs (x :: xs) = r :: rulesOfInputs xs := by
              simp [rulesOfInputs, List.filterMap_cons, hr, Except.toOption]
            rw [hrec.1, hc.1, hcons]
            simp
          · rw [hrec.2.1, hc.2.1]
          · rw [hrec.2.2, hc.2.2.1]

/-- Looking up the key just inserted into a Python dictionary yields
the inserted value. -/
theorem dictFind_insert_self (m : List (String × PyObj)) (k : String) (v : PyObj) :
    dictFind (dictInsert m k v) k = some v := by
  unfold dictFind dictInsert
  rw [List.find?_append]
  have hnone : (m.filter (fun p => p.1 ≠ k)).find? (fun p => decide (p.1 = k)) = none := by
    rw [List.find?_eq_none]
    intro x hx
    have hne := (List.mem_filter.mp hx).2
    simp at hne ⊢
    exact hne
  rw [hnone]
  simp

/-- A well-formed `add_rules` argument normalises successfully. -/
theorem ruleOfInput_ok_of_wellformed (x : RuleInput)
    (h : malformedRuleInput x = false) : ∃ r, ruleOfInput x = .ok r := by
  cases x with
  | tup xs =>
      simp [malformedRuleInput] at h
      obtain ⟨a, b, rfl⟩ := List.length_eq_two.mp h
      exact ⟨⟨a, b⟩, rfl⟩
  | assoc r => exact ⟨r, rfl⟩
  | otherInput => simp [malformedRuleInput] at h

/-- A malformed `add_rules` argument fails its assertion. -/
theorem ruleOfInput_assert_of_malformed (x : RuleInput)
    (h : malformedRuleInput x = true) :
    resultAssertion (ruleOfInput x) = true := by
  cases x with
  | tup xs =>
      simp [malformedRuleInput] at h
      rcases xs with _ | ⟨a, _ | ⟨b, _ | ⟨c, rest⟩⟩⟩
      · rfl
      · rfl
      · simp at h
      · rfl
  | assoc r => simp [malformedRuleInput] at h
  | otherInput => rfl

/-! ## Claim C9 -/

/-- Claim C9: every lexer starts with the end-of-input rule mapped to
`Termination` and the failure rule mapped to `LexingFailure`, followed
— when indentation is tracked — by the newline rule mapped to the
injected `Newline` action; a successful later `add_rules` call appends
its rules after the existing ones in call order; `add_patterns` keeps
patterns in declaration order. -/
theorem lexer_rule_and_pattern_order (decls : List LkName) (ti : Bool) (counter : Nat) :
    mkLexer decls ti counter
      = .ok { tokens := (lexerTokenInit decls ti counter).1
            , internalPatterns := []
            , rules :=
                [⟨.mat .eof, .act (.token terminationTok)⟩,
                 ⟨.mat .failure, .act (.token lexingFailureTok)⟩]
                ++ (if ti then
                      [⟨.mat (.literal "\\n"), .act (.token (newlineTokOf decls counter))⟩]
                    else [])
            , tokensSet := (lexerTokenInit decls ti counter).1.fields.map (·.name)
            , trackIndent := ti
            , literalsMap :=
                if ti then [("\\n", .act (.token (newlineTokOf decls counter)))] else [] }
    ∧ (∀ (l l' : Lexer) (xs : List RuleInput), l.addRules xs = .ok l' →
          l'.rules = l.rules ++ rulesOfInputs xs)
    ∧ (∀ (l : Lexer) (ps : List (String × String)),
          (l.addPatterns ps).internalPatterns = l.internalPatterns ++ ps) := by
  refine ⟨?_, fun l l' xs h => (addRules_ok_append xs l l' h).1, fun l ps => rfl⟩
  cases ti <;>
    simp [mkLexer, implicitRuleInputs, newlineRuleInput, Lexer.addRules, ruleOfInput,
          Lexer.addRule, dictInsert]

/-- Witness for claim C9: the user-rule-append clause applied to the
demo lexer with one user rule. -/
theorem lexer_rule_and_pattern_order_witness :
    demoLexer.addRules [.tup [.mat (.literal "+"), .act .ignore]] = .ok demoLexerPlus
    ∧ demoLexerPlus.rules
        = demoLexer.rules ++ rulesOfInputs [.tup [.mat (.literal "+"), .act .ignore]] :=
  ⟨rfl,
   (lexer_rule_and_pattern_order [] false 0).2.1 demoLexer demoLexerPlus
     [.tup [.mat (.literal "+"), .act .ignore]] rfl⟩

/-! ## Claim C10 -/

/-- Claim C10: two rules whose literal matchers share the same text
both land in the rule list in call order (the earlier one keeps lexing
precedence), while the `literals_map` entry for that text is
overwritten by the later rule, so `token_base_name` on the literal
spelling resolves to the later rule's action. -/
theorem literal_map_last_wins (l l' : Lexer) (t : String) (a1 : Action) (tk : TokenAction)
    (h : l.addRules [.tup [.mat (.literal t), .act a1],
                     .tup [.mat (.literal t), .act (.token tk)]] = .ok l')
    (hs : pyLower t ∉ l.tokensSet) :
    dictFind l'.literalsMap t = some (.act (.token tk))
    ∧ l'.rules = l.rules ++ [⟨.mat (.literal t), .act a1⟩,
                             ⟨.mat (.literal t), .act (.token tk)⟩]
    ∧ l'.tokenBaseName (.str t) = .ok tk.name := by
  simp only [Lexer.addRules, ruleOfInput] at h
  have hl :
      (l.addRule ⟨.mat (.literal t), .act a1⟩).addRule ⟨.mat (.literal t), .act (.token tk)⟩
        = l' := Except.ok.inj h
  subst hl
  refine ⟨?_, ?_, ?_⟩
  · simp [Lexer.addRule, dictFind_insert_self]
  · simp [Lexer.addRule]
  · simp [Lexer.tokenBaseName, Lexer.addRule, hs, dictFind_insert_self]

/-- Witness for claim C10 on the demo lexer and the literal `+`. -/
theorem literal_map_last_wins_witness :
    demoLexer.addRules
        [.tup [.mat (.literal "+"), .act .ignore],
         .tup [.mat (.literal "+"), .act (.token ⟨10, "plus", false, false⟩)]]
      = .ok demoLexerTwoPlus
    ∧ pyLower "+" ∉ demoLexer.tokensSet
    ∧ dictFind demoLexerTwoPlus.literalsMap "+"
        = some (.act (.token ⟨10, "plus", false, false⟩))
    ∧ demoLexerTwoPlus.rules
        = demoLexer.rules ++ [⟨.mat (.literal "+"), .act .ignore⟩,
                              ⟨.mat (.literal "+"), .act (.token ⟨10, "plus", false, false⟩)⟩]
    ∧ demoLexerTwoPlus.tokenBaseName (.str "+") = .ok "plus" := by
  have hmem : pyLower "+" ∉ demoLexer.tokensSet := by decide
  have hmain := literal_map_last_wins demoLexer demoLexerTwoPlus "+" .ignore
    ⟨10, "plus", false, false⟩ rfl hmem
  exact ⟨rfl, hmem, hmain.1, hmain.2.1, hmain.2.2⟩

/-! ## Claim C6 -/

/-- Claim C6, counterexample.  A malformed `add_rules` entry (here an
empty tuple, and a value of a foreign type) is rejected by a raised
`AssertionError`, not through the diagnostics collaborator: the result
is not a reported diagnostic. -/
theorem addrules_malformed_not_reported :
    demoLexer.addRules [.tup []]
      = .error (.assertionError "add_rules: tuple does not have exactly two elements")
    ∧ resultReported (demoLexer.addRules [.tup []]) = false
    ∧ demoLexer.addRules [.otherInput]
      = .error (.assertionError "add_rules: not a tuple nor a RuleAssoc instance")
    ∧ resultReported (demoLexer.addRules [.otherInput]) = false :=
  ⟨rfl, rfl, rfl, rfl⟩

/-- Claim C6, amended: a malformed rule entry reached by `add_rules`
(after any prefix of well-formed entries) always makes the call fail —
but through a raised `AssertionError`, not through the diagnostics
collaborator. -/
theorem addrules_malformed_raises (l : Lexer) (pre : List RuleInput) (x : RuleInput)
    (post : List RuleInput)
    (hpre : ∀ y ∈ pre, malformedRuleInput y = false)
    (hx : malformedRuleInput x = true) :
    resultAssertion (l.addRules (pre ++ x :: post)) = true := by
  induction pre generalizing l with
  | nil =>
      simp only [List.nil_append, Lexer.addRules]
      cases hr : ruleOfInput x with
      | error e =>
          have hax := ruleOfInput_assert_of_malformed x hx
          rw [hr] at hax
          rw [resultAssertion_error (β := RuleAssoc) e]
          exact hax
      | ok r =>
          have hax := ruleOfInput_assert_of_malformed x hx
          rw [hr] at hax
          simp [resultAssertion] at hax
  | cons y pre ih =>
      simp only [List.cons_append, Lexer.addRules]
      obtain ⟨r, hr⟩ := ruleOfInput_ok_of_wellformed y (hpre y (by simp))
      rw [hr]
      exact ih (l.addRule r) (fun z hz => hpre z (by simp [hz]))

/-- Witness for the amended claim C6 on the demo lexer and an empty
tuple. -/
theorem addrules_malformed_raises_witness :
    malformedRuleInput (.tup []) = true
    ∧ resultAssertion (demoLexer.addRules [.tup []]) = true :=
  ⟨rfl,
   addrules_malformed_raises demoLexer [] (.tup []) []
     (fun y hy => absurd hy (List.not_mem_nil y)) rfl⟩

/-! ## Claim C7 -/

/-- Claim C7, counterexample.  `token_base_name` on an input that is
neither a token action, a declared name, nor a string fails the
`isinstance` assertion (a raised `AssertionError`, i.e. a crash), and
an undeclared symbolic name likewise fails an assertion — neither is a
reported diagnostic, contradicting the claim that every such input is
rejected with a fatal, reported error. -/
theorem token_base_name_crashes :
    demoLexer.tokenBaseName .otherTok
      = .error (.assertionError "Bad type for token, supposed to be str")
    ∧ resultReported (demoLexer.tokenBaseName .otherTok) = false
    ∧ demoLexer.tokenBaseName (.nm "plus")
      = .error (.assertionError "token_base_name: Name not in tokens_set")
    ∧ resultReported (demoLexer.tokenBaseName (.nm "plus")) = false :=
  ⟨rfl, rfl, rfl, rfl⟩

/-- Claim C7, amended: `token_base_name` accepts a token action (its
declared name), a declared symbolic name, a case-insensitive string
matching a declared token name, and the exact text of a previously
added literal rule (the corresponding token's name); an unknown string
is a fatal, reported diagnostic, while an input of any other type — or
an undeclared symbolic name — fails a raised assertion instead of
being reported. -/
theorem token_base_name_cases (l : Lexer) :
    (∀ t : TokenAction, l.tokenBaseName (.action t) = .ok t.name)
    ∧ (∀ n : LkName, n ∈ l.tokensSet → l.tokenBaseName (.nm n) = .ok n)
    ∧ (∀ n : LkName, n ∉ l.tokensSet → resultAssertion (l.tokenBaseName (.nm n)) = true)
    ∧ (∀ s : String, pyLower s ∈ l.tokensSet → l.tokenBaseName (.str s) = .ok (pyLower s))
    ∧ (∀ (s : String) (tk : TokenAction), pyLower s ∉ l.tokensSet →
          dictFind l.literalsMap s = some (.act (.token tk)) →
          l.tokenBaseName (.str s) = .ok tk.name)
    ∧ (∀ s : String, pyLower s ∉ l.tokensSet → dictFind l.literalsMap s = none →
          l.tokenBaseName (.str s)
            = .error (.diagError
                (s ++ " token literal is not part of the valid tokens for this grammar")))
    ∧ resultAssertion (l.tokenBaseName .otherTok) = true := by
  refine ⟨fun t => rfl, ?_, ?_, ?_, ?_, ?_, rfl⟩
  · intro n h; simp [Lexer.tokenBaseName, h]
  · intro n h; simp [Lexer.tokenBaseName, h, resultAssertion]
  · intro s h; simp [Lexer.tokenBaseName, h]
  · intro s tk h1 h2; simp [Lexer.tokenBaseName, h1, h2]
  · intro s h1 h2; simp [Lexer.tokenBaseName, h1, h2]

/-- Witness for the amended claim C7 on the demo lexer: the
case-insensitive declared-name lookup succeeds and the unknown-string
case is a reported diagnostic. -/
theorem token_base_name_cases_witness :
    pyLower "Number" ∈ demoLexer.tokensSet
    ∧ demoLexer.tokenBaseName (.str "Number") = .ok "number"
    ∧ pyLower "plus" ∉ demoLexer.tokensSet
    ∧ dictFind demoLexer.literalsMap "plus" = none
    ∧ demoLexer.tokenBaseName (.str "plus")
        = .error (.diagError "plus token literal is not part of the valid tokens for this grammar") := by
  refine ⟨by decide, ?_, by decide, rfl, ?_⟩
  · exact (token_base_name_cases demoLexer).2.2.2.1 "Number" (by decide)
  · exact (token_base_name_cases demoLexer).2.2.2.2.2.1 "plus" (by decide) rfl

/-! ## Claim C2 -/

/-- The subclass-body token actions carry consecutive counter
values. -/
theorem mkDeclaredTokens_map_index (decls : List LkName) (c : Nat) :
    (mkDeclaredTokens decls c).map (·.index) = List.range' c decls.length := by
  simp only [mkDeclaredTokens, List.map_map]
  have h2 : ((fun t => TokenAction.index t) ∘ fun p : Nat × LkName =>
      TokenAction.mk (c + p.1) p.2 false false) = (fun i => c + i) ∘ Prod.fst := rfl
  rw [h2, ← List.map_map, List.enum_map_fst, ← List.range'_eq_map_range]

/-- The catalog indices of a token class declared right after import:
the declared (and layout) tokens occupy `2, 3, …` and the two built-in
actions occupy `0` and `1`. -/
theorem catalog_map_index (decls : List LkName) (ti : Bool) :
    ((lexerTokenInit decls ti importCounter).1).fields.map (·.index)
      = List.range' 2 (decls.length + if ti then 3 else 0) ++ [0, 1] := by
  cases ti with
  | false =>
      simp [lexerTokenInit, terminationTok, lexingFailureTok, importCounter,
            mkDeclaredTokens_map_index]
  | true =>
      have h3 : List.range' (2 + decls.length) 3
          = [2 + decls.length, 2 + decls.length + 1, 2 + decls.length + 2] := by
        simp [List.range']
      have happ := List.range'_append 2 decls.length 3 1
      simp only [one_mul] at happ
      have hL : decls.length + (3 : Nat) = 3 + decls.length := by omega
      simp only [lexerTokenInit, importCounter, if_true]
      simp only [List.map_append, mkDeclaredTokens_map_index, List.map_cons, List.map_nil,
                 indentTokOf, dedentTokOf, newlineTokOf, terminationTok, lexingFailureTok]
      rw [hL, ← happ, h3]

/-- Counting the elements of `range N` below `k`. -/
theorem countP_lt_range (N k : Nat) :
    (List.range N).countP (fun x => decide (x < k)) = min k N := by
  induction N with
  | zero => simp
  | succ n ih =>
      rw [List.range_succ, List.countP_append, ih]
      by_cases h : n < k
      · simp [List.countP_cons, h]
        omega
      · simp [List.countP_cons, h]
        omega

/-- Claim C2, amended: within a token catalog whose actions are the
only ones instantiated in the process (a single token class declared
right after the module import), every token's numeric value equals its
declaration-order position in the catalog's value order, and the first
declared kind is the built-in `Termination` action with value 0.  (The
value is drawn from a process-global counter, so the equality with the
per-catalog position fails as soon as a second catalog exists — see
the counterexample.) -/
theorem token_values_follow_declaration_order (decls : List LkName) (ti : Bool) :
    (∀ t ∈ ((lexerTokenInit decls ti importCounter).1).fields,
        ((lexerTokenInit decls ti importCounter).1).valuePos t = t.index)
    ∧ terminationTok ∈ ((lexerTokenInit decls ti importCounter).1).fields
    ∧ terminationTok.index = 0
    ∧ ((lexerTokenInit decls ti importCounter).1).valuePos terminationTok = 0 := by
  have hmap := catalog_map_index decls ti
  have hperm :
      (((lexerTokenInit decls ti importCounter).1).fields.map (·.index)).Perm
        (List.range ((decls.length + if ti then 3 else 0) + 2)) := by
    rw [hmap]
    have h02 : ([0, 1] : List Nat) = List.range' 0 2 := by simp [List.range']
    have happ := List.range'_append 0 2 (decls.length + if ti then 3 else 0) 1
    simp only [one_mul, Nat.zero_add] at happ
    have hp1 : (List.range' 2 (decls.length + if ti then 3 else 0) ++ [0, 1]).Perm
        ([0, 1] ++ List.range' 2 (decls.length + if ti then 3 else 0)) :=
      List.perm_append_comm
    have he : ([0, 1] ++ List.range' 2 (decls.length + if ti then 3 else 0))
        = List.range ((decls.length + if ti then 3 else 0) + 2) := by
      rw [h02, happ, ← List.range_eq_range']
    exact he ▸ hp1
  have hmain : ∀ t ∈ ((lexerTokenInit decls ti importCounter).1).fields,
      ((lexerTokenInit decls ti importCounter).1).valuePos t = t.index := by
    intro t ht
    have hlt : t.index < (decls.length + if ti then 3 else 0) + 2 := by
      have hmem : t.index ∈ ((lexerTokenInit decls ti importCounter).1).fields.map (·.index) :=
        List.mem_map.mpr ⟨t, ht, rfl⟩
      have := hperm.mem_iff.mp hmem
      exact List.mem_range.mp this
    have hcount :
        ((lexerTokenInit decls ti importCounter).1).fields.countP
            (fun u => decide (u.index < t.index))
          = (List.range ((decls.length + if ti then 3 else 0) + 2)).countP
              (fun x => decide (x < t.index)) := by
      have hm := List.countP_map (fun x => decide (x < t.index)) (fun u : TokenAction => u.index)
        ((lexerTokenInit decls ti importCounter).1).fields
      calc ((lexerTokenInit decls ti importCounter).1).fields.countP
            (fun u => decide (u.index < t.index))
          = (((lexerTokenInit decls ti importCounter).1).fields.map (·.index)).countP
              (fun x => decide (x < t.index)) := by rw [hm]; rfl
        _ = _ := hperm.countP_eq _
    have hval : ((lexerTokenInit decls ti importCounter).1).valuePos t
        = ((lexerTokenInit decls ti importCounter).1).fields.countP
            (fun u => decide (u.index < t.index)) := by
      simp [LexerTokenCatalog.valuePos, List.countP_eq_length_filter]
    rw [hval, hcount, countP_lt_range]
    omega
  have hterm : terminationTok ∈ ((lexerTokenInit decls ti importCounter).1).fields := by
    cases ti <;> simp [lexerTokenInit]
  exact ⟨hmain, hterm, rfl, hmain terminationTok hterm⟩

/-- Witness for the amended claim C2 on a one-token catalog. -/
theorem token_values_follow_declaration_order_witness :
    (⟨2, "number", false, false⟩ : TokenAction)
        ∈ ((lexerTokenInit ["number"] false importCounter).1).fields
    ∧ ((lexerTokenInit ["number"] false importCounter).1).valuePos
        ⟨2, "number", false, false⟩ = 2 :=
  ⟨by decide,
   (token_values_follow_declaration_order ["number"] false).1
     ⟨2, "number", false, false⟩ (by decide)⟩

/-- Claim C2, counterexample.  With two token catalogs in one process
the global counter keeps running: the token declared by the second
catalog gets value 3 although its declaration-order position in that
catalog's value order is 2, so the numeric kind does not equal the
per-catalog declaration position. -/
theorem token_value_exceeds_position_in_second_catalog :
    (⟨3, "ident", false, false⟩ : TokenAction) ∈ secondCatalog.fields
    ∧ secondCatalog.valuePos ⟨3, "ident", false, false⟩ = 2
    ∧ (⟨3, "ident", false, false⟩ : TokenAction).index ≠ 2 := by
  refine ⟨by decide, by decide, by decide⟩

/-! ## Claim C5 -/

/-- The alternative-size validation loop fails on the first
size-violating alternative. -/
theorem checkAltSizes_error_of_bad (maxLen : Nat) (alts : List Alt)
    (h : ∃ a ∈ alts, altSizeOk a maxLen = false) :
    checkAltSizes maxLen alts
      = .error (.assertionError
          "Match size for this Case alternative cannot be longer than the Case matcher") := by
  induction alts with
  | nil => simp at h
  | cons a rest ih =>
      by_cases ha : altSizeOk a maxLen
      · simp only [checkAltSizes, ha, if_true]
        apply ih
        rcases h with ⟨b, hb, hbad⟩
        rcases List.mem_cons.mp hb with hb | hb
        · rw [hb] at hbad; rw [hbad] at ha; exact absurd ha (by simp)
        · exact ⟨b, hb, hbad⟩
      · simp [checkAltSizes, ha]

/-- The alternative-size validation loop succeeds when every
alternative's rewind length is within the bound. -/
theorem checkAltSizes_ok_of_all (maxLen : Nat) (alts : List Alt)
    (h : ∀ a ∈ alts, altSizeOk a maxLen = true) :
    checkAltSizes maxLen alts = .ok () := by
  induction alts with
  | nil => rfl
  | cons a rest ih =>
      have ha := h a (by simp)
      simp only [checkAltSizes, ha, if_true]
      exact ih (fun b hb => h b (by simp [hb]))

/-- Claim C5, counterexample.  A `Case` whose final alternative
carries a previous-token guard, and one whose alternative's rewind
length exceeds the matcher's maximum match length, both fail through
raised `AssertionError`s — not through a reported diagnostic as the
claim states. -/
theorem case_rule_violation_not_reported :
    mkCase (.literal "ab") [⟨some [terminationTok], some terminationTok, some 1⟩]
      = .error (.assertionError
          "The last alternative to a case matcher must have no prev token condition")
    ∧ resultReported
        (mkCase (.literal "ab") [⟨some [terminationTok], some terminationTok, some 1⟩]) = false
    ∧ mkCase (.literal "a") [⟨none, some terminationTok, some 5⟩]
      = .error (.assertionError
          "Match size for this Case alternative cannot be longer than the Case matcher")
    ∧ resultReported (mkCase (.literal "a") [⟨none, some terminationTok, some 5⟩]) = false :=
  ⟨rfl, rfl, rfl, rfl⟩

/-- Claim C5, amended: constructing a `Case` rule whose final
alternative carries a previous-token guard, or any of whose
alternatives has a rewind length exceeding the matcher's maximum match
length, always fails — never succeeding silently — but through a
raised `AssertionError` whose message names the offending construct,
not through the diagnostics collaborator. -/
theorem case_rule_violation_asserts (m : Matcher) (maxLen : Nat) (alts : List Alt)
    (hlen : m.maxMatchLength = .ok maxLen)
    (hbad : (∃ a ∈ alts, altSizeOk a maxLen = false)
        ∨ (∃ last, alts.getLast? = some last ∧ last.prevTokenCond.isSome = true)) :
    resultAssertion (mkCase m alts) = true := by
  have hact : resultAssertion (mkCaseAction maxLen alts) = true := by
    by_cases hall : ∀ a ∈ alts, altSizeOk a maxLen = true
    · rcases hbad with hb | hb
      · rcases hb with ⟨a, ha, hbad⟩
        rw [hall a ha] at hbad
        exact absurd hbad (by simp)
      · rcases hb with ⟨last, hl, hg⟩
        simp only [mkCaseAction, checkAltSizes_ok_of_all maxLen alts hall, hl, hg, if_true]
        rfl
    · have hex : ∃ a ∈ alts, altSizeOk a maxLen = false := by
        push_neg at hall
        rcases hall with ⟨a, ha, hne⟩
        exact ⟨a, ha, by simpa using hne⟩
      simp only [mkCaseAction, checkAltSizes_error_of_bad maxLen alts hex]
      rfl
  simp only [mkCase, hlen]
  cases hca : mkCaseAction maxLen alts with
  | error e =>
      rw [hca] at hact
      rw [resultAssertion_error (β := Action) e]
      exact hact
  | ok a =>
      rw [hca] at hact
      simp [resultAssertion] at hact

/-- Witness for the amended claim C5 on a concrete guarded final
alternative. -/
theorem case_rule_violation_asserts_witness :
    (Matcher.literal "ab").maxMatchLength = .ok 2
    ∧ ([⟨some [terminationTok], some terminationTok, some 1⟩] : List Alt).getLast?
        = some ⟨some [terminationTok], some terminationTok, some 1⟩
    ∧ (Alt.mk (some [terminationTok]) (some terminationTok) (some 1)).prevTokenCond.isSome = true
    ∧ resultAssertion
        (mkCase (.literal "ab") [⟨some [terminationTok], some terminationTok, some 1⟩]) = true :=
  ⟨rfl, rfl, rfl,
   case_rule_violation_asserts (.literal "ab") 2
     [⟨some [terminationTok], some terminationTok, some 1⟩] rfl
     (Or.inr ⟨⟨some [terminationTok], some terminationTok, some 1⟩, rfl, rfl⟩)⟩

/-! ## Construction-pass helper lemmas -/

/-- Successful construction leaves the ambient binding state exactly
as it found it: every scope acquired inside has been released. -/
theorem construct_preserves_env (e : AbstractExpr) :
    ∀ (p : PropCtx) (s s' : CState) (r : ResolvedExpr),
      construct p e s = (s', .ok r) → s'.env = s.env := by
  induction e with
  | envRef =>
      intro p s s' r h
      simp only [construct] at h
      split at h
      · simp only [Prod.mk.injEq] at h
        rw [← h.1]
      · simp at h
  | lit t v =>
      intro p s s' r h
      simp only [construct, Prod.mk.injEq] at h
      rw [← h.1]
  | evalInEnv e x ihe ihx =>
      intro p s s' r h
      simp only [construct] at h
      split at h
      · simp at h
      · next s1 envR heq =>
          split at h
          · simp at h
          · split at h
            · simp at h
            · next s2 xR heq2 =>
                simp only [Prod.mk.injEq] at h
                have h2 := ihx p _ s2 xR heq2
                have h1 := ihe p s s1 envR heq
                rw [← h.1]
                rw [h2, h1]
  | envGetE envE keyE ru sq rc ihenv ihkey =>
      intro p s s' r h
      simp only [construct] at h
      split at h
      · simp at h
      · next s1 symR0 heq =>
          split at h
          · simp at h
          · split at h
            · simp at h
            · next s2 envR heq2 =>
                split at h
                · simp at h
                · simp only [Prod.mk.injEq] at h
                  rw [← h.1]
                  rw [ihenv p s1 s2 envR heq2, ihkey p s s1 symR0 heq]
  | envGetS envE key ru sq rc ihenv =>
      intro p s s' r h
      simp only [construct] at h
      split at h
      · simp at h
      · split at h
        · simp at h
        · next s2 envR heq =>
            split at h
            · simp at h
            · simp only [Prod.mk.injEq] at h
              rw [← h.1]
              exact ihenv p s s2 envR heq
  | envGetBad envE ru sq rc ihenv =>
      intro p s s' r h
      simp only [construct] at h
      simp at h

/-! ## Claim C3 -/

/-- Claim C3: in `eval_in_env(E, X)` the environment operand is
constructed at the outer (pre-bind) state, the dependent expression is
constructed with the ambient environment marked bound, the whole
construction restores the ambient state to its pre-call value, and the
resulting bind node evaluates its body under the `New_Env` variable
holding the value of `E` — so an ambient reference inside `X` resolves
against the environment produced by `E`, the innermost binding winning
under nesting. -/
theorem eval_in_env_shadowing (p : PropCtx) (E X : AbstractExpr) (s sE sX : CState)
    (E' X' : ResolvedExpr) (rho : LkName → Nat) (cur : LkName)
    (hE : construct p E s = (sE, .ok E'))
    (hT : E'.typeOf = .lexicalEnv)
    (hX : construct p X { sE with env := { sE.env with isBound := true } } = (sX, .ok X')) :
    construct p (.evalInEnv E X) s
        = ({ env := { sX.env with isBound := sE.env.isBound }, fresh := sX.fresh + 1 },
           .ok (.envBind (freshEnvVarName sX.fresh) E' X'))
    ∧ ({ env := { sX.env with isBound := sE.env.isBound }, fresh := sX.fresh + 1 } : CState).env
        = s.env
    ∧ evalR rho cur (.envBind (freshEnvVarName sX.fresh) E' X')
        = evalR (updateFun rho (freshEnvVarName sX.fresh) (evalR rho cur E'))
            (freshEnvVarName sX.fresh) X' := by
  have henvE := construct_preserves_env E p s sE E' hE
  have henvX := construct_preserves_env X p _ sX X' hX
  refine ⟨?_, ?_, rfl⟩
  · simp only [construct, hE]
    simp [hT, hX]
  · show ({ sX.env with isBound := sE.env.isBound } : EnvState) = s.env
    rw [henvX, henvE]

/-- Witness for claim C3: a nested `eval_in_env` whose dependent
expression references the ambient environment. -/
theorem eval_in_env_shadowing_witness :
    construct ⟨false⟩ (.lit .lexicalEnv 5) ⟨⟨false, "current_env"⟩, 0⟩
      = (⟨⟨false, "current_env"⟩, 0⟩, .ok (.litR .lexicalEnv 5))
    ∧ (ResolvedExpr.litR .lexicalEnv 5).typeOf = .lexicalEnv
    ∧ construct ⟨false⟩ (.evalInEnv (.lit .lexicalEnv 9) .envRef)
        ⟨⟨true, "current_env"⟩, 0⟩
      = (⟨⟨true, "current_env"⟩, 1⟩,
         .ok (.envBind "new_env_0" (.litR .lexicalEnv 9) .envVarRef))
    ∧ (construct ⟨false⟩
          (.evalInEnv (.lit .lexicalEnv 5) (.evalInEnv (.lit .lexicalEnv 9) .envRef))
          ⟨⟨false, "current_env"⟩, 0⟩
        = (⟨⟨false, "current_env"⟩, 2⟩,
           .ok (.envBind "new_env_1" (.litR .lexicalEnv 5)
                  (.envBind "new_env_0" (.litR .lexicalEnv 9) .envVarRef)))
      ∧ (⟨⟨false, "current_env"⟩, 2⟩ : CState).env = (⟨⟨false, "current_env"⟩, 0⟩ : CState).env
      ∧ evalR (fun _ => 0) "current_env"
            (.envBind "new_env_1" (.litR .lexicalEnv 5)
              (.envBind "new_env_0" (.litR .lexicalEnv 9) .envVarRef))
          = evalR (updateFun (fun _ => 0) "new_env_1"
                (evalR (fun _ => 0) "current_env" (.litR .lexicalEnv 5)))
              "new_env_1" (.envBind "new_env_0" (.litR .lexicalEnv 9) .envVarRef)) := by
  refine ⟨rfl, rfl, rfl, ?_⟩
  exact eval_in_env_shadowing ⟨false⟩ (.lit .lexicalEnv 5)
    (.evalInEnv (.lit .lexicalEnv 9) .envRef) ⟨⟨false, "current_env"⟩, 0⟩
    ⟨⟨false, "current_env"⟩, 0⟩ ⟨⟨true, "current_env"⟩, 1⟩
    (.litR .lexicalEnv 5) (.envBind "new_env_0" (.litR .lexicalEnv 9) .envVarRef)
    (fun _ => 0) "current_env" rfl rfl rfl

/-! ## Claim C8 -/

/-- Static type and template of the expression assembled by
`env_get`. -/
theorem envGetBuild_spec (envR symR : ResolvedExpr) (ru sq rc : Bool) :
    (envGetBuild envR symR ru sq rc).typeOf = (if ru then Ty.envEl else Ty.arrayOf Ty.envEl)
    ∧ (envGetBuild envR symR ru sq rc).templateOf
        = some (if ru then "Get (" ++ (if sq then seqGetTemplate else plainGetTemplate) ++ ", 0)"
                else "Create (" ++ (if sq then seqGetTemplate else plainGetTemplate) ++ ")") := by
  cases ru <;> cases sq <;>
    simp [envGetBuild, ResolvedExpr.typeOf, ResolvedExpr.templateOf]

/-- Claim C8: every successful `env_get` construction resolves to the
array-of-lookup-result type, except under `resolve_unique`, where it
resolves to a single lookup-result and renders as the element at index
0 — the first element — of the lookup-result array, with no
cardinality-one enforcement. -/
theorem env_get_result_type (p : PropCtx) (envE keyE : AbstractExpr) (key : String)
    (ru sq rc : Bool) (s : CState) :
    (∀ (s' : CState) (r : ResolvedExpr),
        construct p (.envGetE envE keyE ru sq rc) s = (s', .ok r) →
        r.typeOf = (if ru then Ty.envEl else Ty.arrayOf Ty.envEl)
        ∧ (ru = true →
            r.templateOf
              = some ("Get (" ++ (if sq then seqGetTemplate else plainGetTemplate) ++ ", 0)")))
    ∧ (∀ (s' : CState) (r : ResolvedExpr),
        construct p (.envGetS envE key ru sq rc) s = (s', .ok r) →
        r.typeOf = (if ru then Ty.envEl else Ty.arrayOf Ty.envEl)
        ∧ (ru = true →
            r.templateOf
              = some ("Get (" ++ (if sq then seqGetTemplate else plainGetTemplate) ++ ", 0)"))) := by
  constructor
  · intro s' r h
    simp only [construct] at h
    split at h
    · simp at h
    · split at h
      · simp at h
      · split at h
        · simp at h
        · split at h
          · simp at h
          · simp only [Prod.mk.injEq, Except.ok.injEq] at h
            obtain ⟨-, h2⟩ := h
            rw [← h2]
            refine ⟨(envGetBuild_spec _ _ ru sq rc).1, fun hru => ?_⟩
            rw [(envGetBuild_spec _ _ ru sq rc).2, hru]
            simp
  · intro s' r h
    simp only [construct] at h
    split at h
    · simp at h
    · split at h
      · simp at h
      · split at h
        · simp at h
        · simp only [Prod.mk.injEq, Except.ok.injEq] at h
          obtain ⟨-, h2⟩ := h
          rw [← h2]
          refine ⟨(envGetBuild_spec _ _ ru sq rc).1, fun hru => ?_⟩
          rw [(envGetBuild_spec _ _ ru sq rc).2, hru]
          simp

/-- Witness for claim C8: a concrete `get(env, "foo",
resolve_unique=True)` construction succeeds at the single
lookup-result type and renders through the first-element template. -/
theorem env_get_result_type_witness :
    construct ⟨true⟩ (.envGetS (.lit .lexicalEnv 5) "foo" true false true)
        ⟨⟨false, "current_env"⟩, 0⟩
      = (⟨⟨false, "current_env"⟩, 0⟩,
         .ok (.basicExpr ("Get (" ++ plainGetTemplate ++ ", 0)") .envEl
               [.litR .lexicalEnv 5, .symLit "foo", .litR .bool 1]))
    ∧ ((ResolvedExpr.basicExpr ("Get (" ++ plainGetTemplate ++ ", 0)") .envEl
          [.litR .lexicalEnv 5, .symLit "foo", .litR .bool 1]).typeOf
        = (if true then Ty.envEl else Ty.arrayOf Ty.envEl)
      ∧ (true = true →
          (ResolvedExpr.basicExpr ("Get (" ++ plainGetTemplate ++ ", 0)") .envEl
            [.litR .lexicalEnv 5, .symLit "foo", .litR .bool 1]).templateOf
            = some ("Get (" ++ (if false then seqGetTemplate else plainGetTemplate) ++ ", 0)"))) := by
  refine ⟨rfl, ?_⟩
  exact (env_get_result_type ⟨true⟩ (.lit .lexicalEnv 5) (.lit .lexicalEnv 5) "foo"
    true false true ⟨⟨false, "current_env"⟩, 0⟩).2
    ⟨⟨false, "current_env"⟩, 0⟩
    (.basicExpr ("Get (" ++ plainGetTemplate ++ ", 0)") .envEl
      [.litR .lexicalEnv 5, .symLit "foo", .litR .bool 1]) rfl

end Langkit
